import Mathlib

/-!
Verification of the audio ring-buffer subsystem of engine-sim-cli
(src/engine_sim_cli.cpp): the circular-buffer write path
(`AudioPlayer::addToCircularBuffer`), the real-time consumer callback
(`AudioPlayer::audioUnitCallback`), the diagnostics query
(`AudioPlayer::getBufferDiagnostics`), the reset operations, the warm-up
producer step of `runSimulation`, and the lead-management algorithm of the
design document.

Samples are modelled as integers: the code only copies float samples through
the buffer, never computes with them, so the copy path is type-agnostic.
Stored audio is modelled as a total function from interleaved sample index
to sample value, mirroring the `float*` storage with indices `2*frame`
(left channel) and `2*frame + 1` (right channel).  Machine `int` values in
the code are non-negative and far from overflow at every use site modelled
here, so `Nat` with explicit `% bufferSize` is faithful.
-/

namespace EngineSimCli

/-- A stereo sample store: interleaved sample index to sample value. -/
def Storage : Type := Nat → Int

/-- Point update of interleaved storage: one array-element assignment. -/
def setIdx (st : Storage) (i : Nat) (v : Int) : Storage :=
  fun j => if j = i then v else st j

/-- The callback context `AudioUnitContext` (engine_sim_cli.cpp:69-87).
The opaque engine handle is omitted; `circularBuffer` is `none` when the
C pointer is null. -/
structure AudioUnitContext where
  isPlaying : Bool
  circularBuffer : Option Storage
  circularBufferSize : Nat
  writePointer : Nat
  readPointer : Nat
  underrunCount : Nat
  bufferStatus : Nat

/-- The `AudioPlayer` state relevant to the buffer operations: its
(possibly null) `AudioUnitContext`. -/
structure AudioPlayer where
  context : Option AudioUnitContext

/-- One iteration of the copy loops in `addToCircularBuffer`
(engine_sim_cli.cpp:304-306, 313-315, 320-322): copy the stereo frame at
source frame index `src` to destination frame index `dst`. -/
def copyFrame (st : Storage) (samples : Storage) (dst src : Nat) : Storage :=
  setIdx (setIdx st (2 * dst) (samples (2 * src))) (2 * dst + 1) (samples (2 * src + 1))

/-- A copy loop of `addToCircularBuffer`: copy `n` consecutive stereo frames,
destination frames `dst, dst+1, ...`, source frames `src, src+1, ...`. -/
def copyFrames (st : Storage) (samples : Storage) (dst src n : Nat) : Storage :=
  match n with
  | 0 => st
  | k + 1 => copyFrames (copyFrame st samples dst src) samples (dst + 1) (src + 1) k

/-- `AudioPlayer::addToCircularBuffer` (engine_sim_cli.cpp:295-330): write
`frameCount` interleaved stereo frames into the circular buffer at the
current write pointer, splitting into two segments when the write wraps
past the end of storage, then publish the advanced write pointer. -/
def addToCircularBuffer (p : AudioPlayer) (samples : Storage) (frameCount : Nat) :
    AudioPlayer :=
  match p.context with
  | none => p
  | some ctx =>
    match ctx.circularBuffer with
    | none => p
    | some buf =>
      let writePtr := ctx.writePointer
      let bufferSize := ctx.circularBufferSize
      let buf' :=
        if writePtr + frameCount ≤ bufferSize then
          copyFrames buf samples writePtr 0 frameCount
        else
          let firstSegment := bufferSize - writePtr
          let afterFirst := copyFrames buf samples writePtr 0 firstSegment
          copyFrames afterFirst samples 0 firstSegment (frameCount - firstSegment)
      let newWritePtr := (writePtr + frameCount) % bufferSize
      ⟨some { ctx with circularBuffer := some buf', writePointer := newWritePtr }⟩

/-- The available-frame computation shared by `getBufferDiagnostics`
(engine_sim_cli.cpp:344-349) and `audioUnitCallback`
(engine_sim_cli.cpp:449-454). -/
def availableFrames (bufferSize writePtr readPtr : Nat) : Nat :=
  if readPtr ≤ writePtr then writePtr - readPtr else (bufferSize - readPtr) + writePtr

/-- The per-frame read loop of `audioUnitCallback`
(engine_sim_cli.cpp:469-473): read `n` stereo frames starting at frame
position `readPtr`, each frame at position `(readPtr + i) % bufferSize`. -/
def readFrames (buf : Storage) (bufferSize readPtr n : Nat) : List Int :=
  match n with
  | 0 => []
  | k + 1 =>
    let readPos := readPtr % bufferSize
    buf (2 * readPos) :: buf (2 * readPos + 1) :: readFrames buf bufferSize (readPtr + 1) k

/-- The observable outcome of one `audioUnitCallback` invocation: the
updated context, the interleaved samples written to the HAL destination
buffer, the internal `framesToRead` count, and the returned status
(`noErr = 0`). -/
structure CallbackResult where
  ctx : Option AudioUnitContext
  data : List Int
  framesRead : Nat
  status : Nat

/-- `AudioPlayer::audioUnitCallback` (engine_sim_cli.cpp:405-494) for the
single interleaved-stereo HAL buffer the configured stream format produces
(`mNumberBuffers = 1`, `mDataByteSize` exactly `numberFrames` stereo float
frames, so the byte-size clamp at lines 437-440 is the identity): null
context or stopped playback and null storage each output pure silence;
otherwise read `min(numberFrames, available)` frames, zero-fill the
shortfall, count an underrun on shortfall, set the diagnostic status, and
advance the read pointer by exactly the frames read. -/
def audioUnitCallback (ctx? : Option AudioUnitContext) (numberFrames : Nat) :
    CallbackResult :=
  match ctx? with
  | none => ⟨none, List.replicate (2 * numberFrames) 0, 0, 0⟩
  | some ctx =>
    if ctx.isPlaying = false then
      ⟨some ctx, List.replicate (2 * numberFrames) 0, 0, 0⟩
    else
      match ctx.circularBuffer with
      | none => ⟨some ctx, List.replicate (2 * numberFrames) 0, 0, 0⟩
      | some buf =>
        let bufferSize := ctx.circularBufferSize
        let framesToWrite := numberFrames
        let readPtr := ctx.readPointer
        let writePtr := ctx.writePointer
        let available := availableFrames bufferSize writePtr readPtr
        let framesToRead := min framesToWrite available
        let underrun' :=
          if framesToRead < framesToWrite then ctx.underrunCount + 1 else ctx.underrunCount
        let data := readFrames buf bufferSize readPtr framesToRead ++
          List.replicate (2 * (framesToWrite - framesToRead)) 0
        let status' :=
          if framesToRead < framesToWrite then
            if available < bufferSize / 8 then 2 else 1
          else 0
        let newReadPtr := (readPtr + framesToRead) % bufferSize
        let ctx' := { ctx with
          underrunCount := underrun'
          bufferStatus := status'
          readPointer := newReadPtr }
        ⟨some ctx', data, framesToRead, 0⟩

/-- The out-parameters of `getBufferDiagnostics`. -/
structure Diagnostics where
  writePtr : Nat
  readPtr : Nat
  available : Nat
  status : Nat

/-- `AudioPlayer::getBufferDiagnostics` (engine_sim_cli.cpp:336-366):
report both cursors, the available frame count and a status class; in the
zero-available branch it also increments the underrun counter. -/
def getBufferDiagnostics (p : AudioPlayer) : AudioPlayer × Diagnostics :=
  match p.context with
  | none => (p, ⟨0, 0, 0, 3⟩)
  | some ctx =>
    let writePtr := ctx.writePointer
    let readPtr := ctx.readPointer
    let bufferSize := ctx.circularBufferSize
    let available := availableFrames bufferSize writePtr readPtr
    if bufferSize / 4 < available then
      (p, ⟨writePtr, readPtr, available, 0⟩)
    else if bufferSize / 8 < available then
      (p, ⟨writePtr, readPtr, available, 1⟩)
    else if 0 < available then
      (p, ⟨writePtr, readPtr, available, 2⟩)
    else
      (⟨some { ctx with underrunCount := ctx.underrunCount + 1 }⟩,
       ⟨writePtr, readPtr, available, 3⟩)

/-- `AudioPlayer::resetBufferDiagnostics` (engine_sim_cli.cpp:369-374):
zero the underrun counter and the status. -/
def resetBufferDiagnostics (p : AudioPlayer) : AudioPlayer :=
  match p.context with
  | none => p
  | some ctx => ⟨some { ctx with underrunCount := 0, bufferStatus := 0 }⟩

/-- `AudioPlayer::resetCircularBuffer` (engine_sim_cli.cpp:377-385): set
both cursors to 0 and zero-fill the `2 * circularBufferSize` stored
samples. -/
def resetCircularBuffer (p : AudioPlayer) : AudioPlayer :=
  match p.context with
  | none => p
  | some ctx =>
    match ctx.circularBuffer with
    | none => p
    | some buf =>
      ⟨some { ctx with
          writePointer := 0
          readPointer := 0
          circularBuffer :=
            some (fun i => if i < 2 * ctx.circularBufferSize then 0 else buf i) }⟩

/-- The audio handling of one warm-up producer iteration of `runSimulation`
(engine_sim_cli.cpp:1483-1502): in play mode the warm-up audio drained from
the synthesizer is written into the circular buffer when any frames were
read; in WAV-only mode it is drained synchronously and discarded. -/
def warmupCycleWrite (playAudio : Bool) (p : AudioPlayer) (warmupAudio : Storage)
    (warmupRead : Nat) : AudioPlayer :=
  if playAudio then
    if 0 < warmupRead then addToCircularBuffer p warmupAudio warmupRead else p
  else
    p

/-- The interleaved sample sequence of frames `s, s+1, ..., s+n-1` of a
sample source, as handed to `addToCircularBuffer`. -/
def sampleList (samples : Storage) (s n : Nat) : List Int :=
  match n with
  | 0 => []
  | k + 1 => samples (2 * s) :: samples (2 * s + 1) :: sampleList samples (s + 1) k

/-- The buffer operations reachable from outside the `AudioPlayer` during a
session: producer writes, consumer callbacks, diagnostics queries and the
circular-buffer reset.  The diagnostics-counter reset
(`resetBufferDiagnostics`) is kept separate because it zeroes the
underrun counter. -/
inductive BufferOp where
  | write (samples : Storage) (frameCount : Nat)
  | callback (numberFrames : Nat)
  | diagQuery
  | bufReset

/-- State effect of one buffer operation on the player. -/
def applyOp (p : AudioPlayer) (op : BufferOp) : AudioPlayer :=
  match op with
  | .write samples n => addToCircularBuffer p samples n
  | .callback n => ⟨(audioUnitCallback p.context n).ctx⟩
  | .diagQuery => (getBufferDiagnostics p).1
  | .bufReset => resetCircularBuffer p

/-- The underrun counter of a player (0 when the context is null). -/
def underrunOf (p : AudioPlayer) : Nat :=
  match p.context with
  | none => 0
  | some ctx => ctx.underrunCount

/-- Modelled from the spec: the `LeadController` component (spec §3
"LeadController state") is described in the design document but is absent
from the source tree — the producer loop in `runSimulation` writes a fixed
per-cycle frame count with no lead management.  Its two constants plus the
buffer capacity and the nominal per-cycle frame count. -/
structure LeadConfig where
  capacityFrames : Nat
  targetLeadFrames : Nat
  maxLeadFrames : Nat
  defaultFramesPerCycle : Nat

/-- Modelled from the spec: the current lead
`(writeCursor - readCursor) mod capacityFrames` (spec §4.2 step 1), in
wraparound-safe form for cursors below the capacity. -/
def currentLead (capacity writeCursor readCursor : Nat) : Nat :=
  (writeCursor + capacity - readCursor) % capacity

/-- Modelled from the spec: the safety-reset step (spec §4.2 step 2) — when
the current lead exceeds `maxLeadFrames`, snap the write cursor to
`(readCursor + targetLeadFrames/2) mod capacityFrames`, otherwise keep
it. -/
def leadSnap (cfg : LeadConfig) (writeCursor readCursor : Nat) : Nat :=
  if cfg.maxLeadFrames < currentLead cfg.capacityFrames writeCursor readCursor then
    (readCursor + cfg.targetLeadFrames / 2) % cfg.capacityFrames
  else writeCursor

/-- Modelled from the spec: the production-budget steps (spec §4.2 steps
3-5) — frames needed to reach `(readCursor + targetLeadFrames) mod
capacityFrames`, zero when producing would shrink the current lead, capped
at `defaultFramesPerCycle`. -/
def leadBudget (cfg : LeadConfig) (writeCursor readCursor : Nat) : Nat :=
  let lead1 := currentLead cfg.capacityFrames writeCursor readCursor
  let targetWriteCursor := (readCursor + cfg.targetLeadFrames) % cfg.capacityFrames
  let neededFrames := (targetWriteCursor + cfg.capacityFrames - writeCursor) %
    cfg.capacityFrames
  let leadAfter := currentLead cfg.capacityFrames
    ((writeCursor + neededFrames) % cfg.capacityFrames) readCursor
  if leadAfter < lead1 then 0 else min neededFrames cfg.defaultFramesPerCycle

/-- Modelled from the spec: one full per-cycle LeadController decision
(spec §4.2): the possibly snapped-back write cursor and this cycle's frame
budget. -/
def leadCycle (cfg : LeadConfig) (writeCursor readCursor : Nat) : Nat × Nat :=
  (leadSnap cfg writeCursor readCursor,
   leadBudget cfg (leadSnap cfg writeCursor readCursor) readCursor)

/-- Observation of the full stored contents of the player's circular
buffer: one full wrap of frames read from position 0, exactly as the
consumer read loop traverses storage. -/
def storedSamples (p : AudioPlayer) : Option (List Int) :=
  p.context.bind fun ctx =>
    ctx.circularBuffer.map fun buf =>
      readFrames buf ctx.circularBufferSize 0 ctx.circularBufferSize

/-! Basic lemmas about the copy loops, the read loop and wraparound
arithmetic. -/

theorem setIdx_eval (st : Storage) (i : Nat) (v : Int) (j : Nat) :
    setIdx st i v j = if j = i then v else st j := rfl

theorem copyFrames_lt (samples : Storage) (n : Nat) :
    ∀ (st : Storage) (d s k : Nat), k < 2 * d → copyFrames st samples d s n k = st k := by
  induction n with
  | zero => intro st d s k _; rfl
  | succ m ih =>
    intro st d s k hk
    show copyFrames (copyFrame st samples d s) samples (d + 1) (s + 1) m k = st k
    rw [ih (copyFrame st samples d s) (d + 1) (s + 1) k (by omega)]
    simp only [copyFrame, setIdx_eval]
    rw [if_neg (by omega), if_neg (by omega)]

theorem copyFrames_ge (samples : Storage) (n : Nat) :
    ∀ (st : Storage) (d s k : Nat), 2 * (d + n) ≤ k → copyFrames st samples d s n k = st k := by
  induction n with
  | zero => intro st d s k _; rfl
  | succ m ih =>
    intro st d s k hk
    show copyFrames (copyFrame st samples d s) samples (d + 1) (s + 1) m k = st k
    rw [ih (copyFrame st samples d s) (d + 1) (s + 1) k (by omega)]
    simp only [copyFrame, setIdx_eval]
    rw [if_neg (by omega), if_neg (by omega)]

theorem copyFrames_hit (samples : Storage) (n : Nat) :
    ∀ (st : Storage) (d s i : Nat), i < n →
      copyFrames st samples d s n (2 * (d + i)) = samples (2 * (s + i)) ∧
      copyFrames st samples d s n (2 * (d + i) + 1) = samples (2 * (s + i) + 1) := by
  induction n with
  | zero => intro st d s i hi; omega
  | succ m ih =>
    intro st d s i hi
    match i with
    | 0 =>
      show copyFrames (copyFrame st samples d s) samples (d + 1) (s + 1) m (2 * (d + 0)) =
            samples (2 * (s + 0)) ∧
          copyFrames (copyFrame st samples d s) samples (d + 1) (s + 1) m (2 * (d + 0) + 1) =
            samples (2 * (s + 0) + 1)
      rw [copyFrames_lt samples m _ _ _ _ (by omega),
        copyFrames_lt samples m _ _ _ _ (by omega)]
      simp only [copyFrame, setIdx_eval]
      constructor
      · rw [if_neg (by omega), if_pos (by omega)]
        congr 1
      · rw [if_pos (by omega)]
        congr 1
    | j + 1 =>
      have h1 : 2 * (d + (j + 1)) = 2 * ((d + 1) + j) := by ring
      have h2 : 2 * (s + (j + 1)) = 2 * ((s + 1) + j) := by ring
      show copyFrames (copyFrame st samples d s) samples (d + 1) (s + 1) m (2 * (d + (j + 1))) =
            samples (2 * (s + (j + 1))) ∧
          copyFrames (copyFrame st samples d s) samples (d + 1) (s + 1) m
              (2 * (d + (j + 1)) + 1) =
            samples (2 * (s + (j + 1)) + 1)
      rw [h1, h2]
      exact ih (copyFrame st samples d s) (d + 1) (s + 1) j (by omega)

theorem readFrames_length (buf : Storage) (bufferSize : Nat) (n : Nat) :
    ∀ readPtr : Nat, (readFrames buf bufferSize readPtr n).length = 2 * n := by
  induction n with
  | zero => intro readPtr; rfl
  | succ m ih =>
    intro readPtr
    show (_ :: _ :: readFrames buf bufferSize (readPtr + 1) m).length = 2 * (m + 1)
    simp only [List.length_cons, ih (readPtr + 1)]
    omega

theorem readFrames_getD (buf : Storage) (bufferSize : Nat) (n : Nat) :
    ∀ readPtr i : Nat, i < n →
      (readFrames buf bufferSize readPtr n).getD (2 * i) 0 =
        buf (2 * ((readPtr + i) % bufferSize)) ∧
      (readFrames buf bufferSize readPtr n).getD (2 * i + 1) 0 =
        buf (2 * ((readPtr + i) % bufferSize) + 1) := by
  induction n with
  | zero => intro readPtr i hi; omega
  | succ m ih =>
    intro readPtr i hi
    match i with
    | 0 => simp [readFrames]
    | j + 1 =>
      have h1 : 2 * (j + 1) = (2 * j + 1) + 1 := by ring
      have h2 : readPtr + (j + 1) = (readPtr + 1) + j := by ring
      show (_ :: _ :: readFrames buf bufferSize (readPtr + 1) m).getD (2 * (j + 1)) 0 = _ ∧
        (_ :: _ :: readFrames buf bufferSize (readPtr + 1) m).getD (2 * (j + 1) + 1) 0 = _
      rw [h1, h2]
      simp only [List.getD_cons_succ]
      exact ih (readPtr + 1) j (by omega)

theorem readFrames_eq_sampleList (buf samples : Storage) (bufferSize : Nat) (n : Nat) :
    ∀ readPtr s : Nat,
      (∀ i, i < n →
        buf (2 * ((readPtr + i) % bufferSize)) = samples (2 * (s + i)) ∧
        buf (2 * ((readPtr + i) % bufferSize) + 1) = samples (2 * (s + i) + 1)) →
      readFrames buf bufferSize readPtr n = sampleList samples s n := by
  induction n with
  | zero => intro readPtr s _; rfl
  | succ m ih =>
    intro readPtr s h
    show buf (2 * (readPtr % bufferSize)) :: buf (2 * (readPtr % bufferSize) + 1) ::
        readFrames buf bufferSize (readPtr + 1) m =
      samples (2 * s) :: samples (2 * s + 1) :: sampleList samples (s + 1) m
    have h0 := h 0 (by omega)
    simp only [Nat.add_zero] at h0
    rw [h0.1, h0.2, ih (readPtr + 1) (s + 1) (fun i hi => ?_)]
    have hs := h (i + 1) (by omega)
    have e1 : readPtr + (i + 1) = (readPtr + 1) + i := by ring
    have e2 : s + (i + 1) = (s + 1) + i := by ring
    rw [e1, e2] at hs
    exact hs

theorem readFrames_zero (buf : Storage) (bufferSize : Nat) (hC : 0 < bufferSize)
    (hbuf : ∀ k, k < 2 * bufferSize → buf k = 0) (n : Nat) :
    ∀ readPtr : Nat, readFrames buf bufferSize readPtr n = List.replicate (2 * n) 0 := by
  induction n with
  | zero => intro readPtr; rfl
  | succ m ih =>
    intro readPtr
    have hlt : readPtr % bufferSize < bufferSize := Nat.mod_lt _ hC
    show buf (2 * (readPtr % bufferSize)) :: buf (2 * (readPtr % bufferSize) + 1) ::
        readFrames buf bufferSize (readPtr + 1) m = List.replicate (2 * (m + 1)) 0
    have e : 2 * (m + 1) = (2 * m + 1) + 1 := by ring
    rw [e, List.replicate_succ, List.replicate_succ, hbuf _ (by omega), hbuf _ (by omega),
      ih (readPtr + 1)]

theorem mod_two_cases (x C : Nat) (hC : 0 < C) (h : x < 2 * C) :
    x % C = if x < C then x else x - C := by
  split
  · exact Nat.mod_eq_of_lt (by assumption)
  · rw [Nat.mod_eq_sub_mod (by omega), Nat.mod_eq_of_lt (by omega)]

theorem availableFrames_eq_mod (C w r : Nat) (hw : w < C) (hr : r < C) :
    availableFrames C w r = (w + C - r) % C := by
  rw [mod_two_cases (w + C - r) C (by omega) (by omega)]
  unfold availableFrames
  split <;> split <;> omega

theorem availableFrames_lead_add (C r d : Nat) (hC : 0 < C) (hr : r < C) (hd : d < C) :
    availableFrames C ((r + d) % C) r = d := by
  rw [mod_two_cases (r + d) C hC (by omega)]
  unfold availableFrames
  split <;> split <;> omega

/-- Characterization of `addToCircularBuffer` on a live context with write
cursor in range and a write of at most the capacity: the published write
cursor advances by `frameCount` modulo the capacity, all other fields are
preserved, and for every written frame `i` the storage at ring position
`(writePtr + i) % bufferSize` holds exactly the i-th input frame. -/
theorem addToCircularBuffer_frames (isP : Bool) (buf samples : Storage)
    (C w r u st n : Nat) (hC : 0 < C) (hw : w < C) (hn : n ≤ C) :
    ∃ buf',
      addToCircularBuffer ⟨some ⟨isP, some buf, C, w, r, u, st⟩⟩ samples n =
        ⟨some ⟨isP, some buf', C, (w + n) % C, r, u, st⟩⟩ ∧
      ∀ i, i < n →
        buf' (2 * ((w + i) % C)) = samples (2 * i) ∧
        buf' (2 * ((w + i) % C) + 1) = samples (2 * i + 1) := by
  refine ⟨_, rfl, ?_⟩
  intro i hi
  show (if w + n ≤ C then copyFrames buf samples w 0 n
      else copyFrames (copyFrames buf samples w 0 (C - w)) samples 0 (C - w) (n - (C - w)))
        (2 * ((w + i) % C)) = samples (2 * i) ∧
    (if w + n ≤ C then copyFrames buf samples w 0 n
      else copyFrames (copyFrames buf samples w 0 (C - w)) samples 0 (C - w) (n - (C - w)))
        (2 * ((w + i) % C) + 1) = samples (2 * i + 1)
  split
  · -- no wraparound: one contiguous segment
    rename_i hle
    rw [Nat.mod_eq_of_lt (by omega)]
    have h := copyFrames_hit samples n buf w 0 i hi
    simpa using h
  · rename_i hgt
    by_cases hif : i < C - w
    · -- frame lands in the first segment [w, C)
      rw [Nat.mod_eq_of_lt (by omega)]
      rw [copyFrames_ge samples (n - (C - w)) _ 0 (C - w) _ (by omega),
        copyFrames_ge samples (n - (C - w)) _ 0 (C - w) _ (by omega)]
      have h := copyFrames_hit samples (C - w) buf w 0 i hif
      simpa using h
    · -- frame wraps into the second segment [0, n - (C - w))
      have hmod : (w + i) % C = i - (C - w) := by
        rw [mod_two_cases (w + i) C hC (by omega)]
        rw [if_neg (by omega)]
        omega
      rw [hmod]
      have h := copyFrames_hit samples (n - (C - w)) (copyFrames buf samples w 0 (C - w))
        0 (C - w) (i - (C - w)) (by omega)
      have e1 : 0 + (i - (C - w)) = i - (C - w) := by omega
      have e2 : (C - w) + (i - (C - w)) = i := by omega
      rw [e1, e2] at h
      exact h

/-- Unfolding of `audioUnitCallback` on a live context (playing, storage
allocated): one equation exposing the read count, the output data, the
underrun update, the status update and the advanced read pointer. -/
theorem audioUnitCallback_live (buf : Storage) (C w r u st n : Nat) :
    audioUnitCallback (some ⟨true, some buf, C, w, r, u, st⟩) n =
      ⟨some ⟨true, some buf, C, w,
          (r + min n (availableFrames C w r)) % C,
          (if min n (availableFrames C w r) < n then u + 1 else u),
          (if min n (availableFrames C w r) < n then
            if availableFrames C w r < C / 8 then 2 else 1
          else 0)⟩,
        readFrames buf C r (min n (availableFrames C w r)) ++
          List.replicate (2 * (n - min n (availableFrames C w r))) 0,
        min n (availableFrames C w r), 0⟩ := rfl

theorem copyFrames_miss (samples : Storage) (n : Nat) :
    ∀ (st : Storage) (d s k : Nat),
      (∀ i, i < n → k ≠ 2 * (d + i) ∧ k ≠ 2 * (d + i) + 1) →
      copyFrames st samples d s n k = st k := by
  induction n with
  | zero => intro st d s k _; rfl
  | succ m ih =>
    intro st d s k hk
    show copyFrames (copyFrame st samples d s) samples (d + 1) (s + 1) m k = st k
    rw [ih (copyFrame st samples d s) (d + 1) (s + 1) k (fun i hi => ?_)]
    · have h0 := hk 0 (by omega)
      simp only [copyFrame, setIdx_eval]
      rw [if_neg (by omega), if_neg (by omega)]
    · have h := hk (i + 1) (by omega)
      constructor
      · have e : 2 * (d + (i + 1)) = 2 * ((d + 1) + i) := by ring
        rw [← e]; exact h.1
      · have e : 2 * (d + (i + 1)) + 1 = 2 * ((d + 1) + i) + 1 := by ring
        rw [← e]; exact h.2

/-- C1 (amended): for every capacity, every starting write-cursor position
and every `frameCount` strictly below the capacity, writing `frameCount`
interleaved stereo frames into the ring buffer (read cursor at the write
cursor, i.e. an empty buffer) and then reading `frameCount` frames back
yields exactly the input sample sequence, including when the written range
wraps past the end of storage.  The original bound `frameCount ≤
capacityFrames` fails at `frameCount = capacityFrames`: the write cursor
then wraps onto the read cursor and the buffer reads as empty. -/
theorem C1_roundtrip (buf samples : Storage) (C w u st n : Nat)
    (hC : 0 < C) (hw : w < C) (hn : n < C) :
    (audioUnitCallback
      (addToCircularBuffer ⟨some ⟨true, some buf, C, w, w, u, st⟩⟩ samples n).context
      n).data = sampleList samples 0 n := by
  obtain ⟨buf', heq, hpt⟩ :=
    addToCircularBuffer_frames true buf samples C w w u st n hC hw (by omega)
  rw [heq]
  show (audioUnitCallback (some ⟨true, some buf', C, (w + n) % C, w, u, st⟩) n).data =
    sampleList samples 0 n
  rw [audioUnitCallback_live]
  have havail : availableFrames C ((w + n) % C) w = n :=
    availableFrames_lead_add C w n hC hw hn
  show readFrames buf' C w (min n (availableFrames C ((w + n) % C) w)) ++
      List.replicate (2 * (n - min n (availableFrames C ((w + n) % C) w))) 0 =
    sampleList samples 0 n
  rw [havail, Nat.min_self, Nat.sub_self, Nat.mul_zero, List.replicate_zero,
    List.append_nil]
  refine readFrames_eq_sampleList buf' samples C n w 0 (fun i hi => ?_)
  have h := hpt i hi
  rw [Nat.zero_add]
  exact h

/-- C1 counterexample to the original bound `frameCount ≤ capacityFrames`:
with capacity 1 and a full-capacity write of the frame `(7, 7)`, reading
one frame back yields the zero frame, not the input. -/
theorem C1_counterexample :
    (audioUnitCallback
      (addToCircularBuffer ⟨some ⟨true, some (fun _ => 0), 1, 0, 0, 0, 0⟩⟩
        (fun _ => 7) 1).context 1).data = [0, 0] ∧
    sampleList (fun _ => (7 : Int)) 0 1 = [7, 7] ∧
    ([0, 0] : List Int) ≠ [7, 7] := by
  refine ⟨rfl, rfl, by decide⟩

/-- C1 witness: capacity 3, write cursor 2, two frames written across the
wrap boundary read back as the input sequence. -/
theorem C1_witness :
    (audioUnitCallback
      (addToCircularBuffer ⟨some ⟨true, some (fun _ => 0), 3, 2, 2, 0, 0⟩⟩
        (fun i => Int.ofNat (10 + i)) 2).context 2).data =
      sampleList (fun i => Int.ofNat (10 + i)) 0 2 :=
  C1_roundtrip (fun _ => 0) (fun i => Int.ofNat (10 + i)) 3 2 0 0 2
    (by decide) (by decide) (by decide)

/-- C4: a consumer read of `maxFrames` frames on a live context computes
`available = (writeCursor - readCursor) mod capacityFrames` from the two
cursors, copies exactly `min(maxFrames, available)` frames of buffered
audio into the destination (handling the wrap boundary), zero-extends the
destination to the requested length, advances the read cursor by exactly
the frames read, and reports that count. -/
theorem C4_read (buf : Storage) (C w r u st n : Nat) (hw : w < C) (hr : r < C) :
    (audioUnitCallback (some ⟨true, some buf, C, w, r, u, st⟩) n).framesRead =
      min n ((w + C - r) % C) ∧
    (audioUnitCallback (some ⟨true, some buf, C, w, r, u, st⟩) n).data.length = 2 * n ∧
    (∀ i, i < min n ((w + C - r) % C) →
      (audioUnitCallback (some ⟨true, some buf, C, w, r, u, st⟩) n).data.getD (2 * i) 0 =
        buf (2 * ((r + i) % C)) ∧
      (audioUnitCallback (some ⟨true, some buf, C, w, r, u, st⟩) n).data.getD
          (2 * i + 1) 0 =
        buf (2 * ((r + i) % C) + 1)) ∧
    ((audioUnitCallback (some ⟨true, some buf, C, w, r, u, st⟩) n).ctx.map
        AudioUnitContext.readPointer) =
      some ((r + min n ((w + C - r) % C)) % C) := by
  have hmod : availableFrames C w r = (w + C - r) % C := availableFrames_eq_mod C w r hw hr
  rw [audioUnitCallback_live, hmod]
  have hmin : min n ((w + C - r) % C) ≤ n := Nat.min_le_left _ _
  have hlen := readFrames_length buf C (min n ((w + C - r) % C)) r
  refine ⟨rfl, ?_, fun i hi => ?_, rfl⟩
  · show (readFrames buf C r (min n ((w + C - r) % C)) ++
        List.replicate (2 * (n - min n ((w + C - r) % C))) 0).length = 2 * n
    rw [List.length_append, hlen, List.length_replicate]
    omega
  · have hget := readFrames_getD buf C (min n ((w + C - r) % C)) r i hi
    show (readFrames buf C r (min n ((w + C - r) % C)) ++
        List.replicate (2 * (n - min n ((w + C - r) % C))) 0).getD (2 * i) 0 =
          buf (2 * ((r + i) % C)) ∧
      (readFrames buf C r (min n ((w + C - r) % C)) ++
        List.replicate (2 * (n - min n ((w + C - r) % C))) 0).getD (2 * i + 1) 0 =
          buf (2 * ((r + i) % C) + 1)
    rw [List.getD_append _ _ _ _ (by omega), List.getD_append _ _ _ _ (by omega)]
    exact hget

/-- C4 witness: capacity 10, cursors 2 and 0, a 4-frame request on 2
available frames. -/
theorem C4_witness :
    (audioUnitCallback (some ⟨true, some (fun i => Int.ofNat (i + 1)), 10, 2, 0, 0, 0⟩)
        4).framesRead = min 4 ((2 + 10 - 0) % 10) ∧
    ((audioUnitCallback (some ⟨true, some (fun i => Int.ofNat (i + 1)), 10, 2, 0, 0, 0⟩)
        4).ctx.map AudioUnitContext.readPointer) =
      some ((0 + min 4 ((2 + 10 - 0) % 10)) % 10) :=
  ⟨(C4_read (fun i => Int.ofNat (i + 1)) 10 2 0 0 0 4 (by decide) (by decide)).1,
   (C4_read (fun i => Int.ofNat (i + 1)) 10 2 0 0 0 4 (by decide) (by decide)).2.2.2⟩

/-- C5: a consumer callback requesting 735 frames while only 200 frames
are available reads exactly 200 frames, leaves destination frames
[200..735) exactly zero, and increments `underrunCount` by exactly 1. -/
theorem C5_underrun_scenario (buf : Storage) (C w r u st : Nat)
    (hw : w < C) (hr : r < C) (havail : (w + C - r) % C = 200) :
    (audioUnitCallback (some ⟨true, some buf, C, w, r, u, st⟩) 735).framesRead = 200 ∧
    (audioUnitCallback (some ⟨true, some buf, C, w, r, u, st⟩) 735).data.drop (2 * 200) =
      List.replicate (2 * (735 - 200)) (0 : Int) ∧
    ((audioUnitCallback (some ⟨true, some buf, C, w, r, u, st⟩) 735).ctx.map
        AudioUnitContext.underrunCount) = some (u + 1) := by
  have hmod : availableFrames C w r = 200 := by
    rw [availableFrames_eq_mod C w r hw hr, havail]
  rw [audioUnitCallback_live, hmod]
  have hmin : min 735 200 = 200 := by decide
  rw [hmin]
  have hlen := readFrames_length buf C 200 r
  refine ⟨rfl, ?_, by rw [if_pos (by decide)]; rfl⟩
  show (readFrames buf C r 200 ++ List.replicate (2 * (735 - 200)) 0).drop (2 * 200) =
    List.replicate (2 * (735 - 200)) (0 : Int)
  rw [show (2 * 200 : Nat) = (readFrames buf C r 200).length from hlen.symm,
    List.drop_left]

/-- C5 witness: capacity 1000, write cursor 200, read cursor 0. -/
theorem C5_witness :
    (audioUnitCallback (some ⟨true, some (fun _ => 5), 1000, 200, 0, 3, 0⟩)
        735).framesRead = 200 ∧
    ((audioUnitCallback (some ⟨true, some (fun _ => 5), 1000, 200, 0, 3, 0⟩)
        735).ctx.map AudioUnitContext.underrunCount) = some (3 + 1) :=
  ⟨(C5_underrun_scenario (fun _ => 5) 1000 200 0 3 0 (by decide) (by decide) (by decide)).1,
   (C5_underrun_scenario (fun _ => 5) 1000 200 0 3 0 (by decide) (by decide)
      (by decide)).2.2⟩

/-- C6: writing `frameCount ≤ capacityFrames` interleaved stereo frames
from write cursor `w` stores frame `i` at ring position `(w + i) mod
capacityFrames`, leaves every storage position outside the written range
unchanged, and the state after the operation carries the published write
cursor `(w + frameCount) mod capacityFrames` with all other fields
untouched. -/
theorem C6_write (isP : Bool) (buf samples : Storage) (C w r u st n : Nat)
    (hC : 0 < C) (hw : w < C) (hn : n ≤ C) :
    ∃ buf',
      addToCircularBuffer ⟨some ⟨isP, some buf, C, w, r, u, st⟩⟩ samples n =
        ⟨some ⟨isP, some buf', C, (w + n) % C, r, u, st⟩⟩ ∧
      (∀ i, i < n →
        buf' (2 * ((w + i) % C)) = samples (2 * i) ∧
        buf' (2 * ((w + i) % C) + 1) = samples (2 * i + 1)) ∧
      (∀ k,
        (∀ i, i < n → k ≠ 2 * ((w + i) % C) ∧ k ≠ 2 * ((w + i) % C) + 1) →
        buf' k = buf k) := by
  obtain ⟨buf', heq, hpt⟩ :=
    addToCircularBuffer_frames isP buf samples C w r u st n hC hw hn
  refine ⟨buf', heq, hpt, fun k hk => ?_⟩
  have hbuf' : buf' =
      (if w + n ≤ C then copyFrames buf samples w 0 n
        else copyFrames (copyFrames buf samples w 0 (C - w)) samples 0 (C - w)
          (n - (C - w))) := by
    have := heq
    rw [addToCircularBuffer] at this
    simp only [AudioPlayer.mk.injEq, Option.some.injEq, AudioUnitContext.mk.injEq,
      Option.some.injEq] at this
    exact this.2.1.symm
  rw [hbuf']
  split
  · rename_i hle
    refine copyFrames_miss samples n buf w 0 k (fun i hi => ?_)
    have h := hk i hi
    rwa [Nat.mod_eq_of_lt (by omega)] at h
  · rename_i hgt
    have hmiss2 : ∀ j, j < n - (C - w) → k ≠ 2 * (0 + j) ∧ k ≠ 2 * (0 + j) + 1 := by
      intro j hj
      have h := hk (C - w + j) (by omega)
      have e : (w + (C - w + j)) % C = 0 + j := by
        have e1 : w + (C - w + j) = C + j := by omega
        rw [e1, Nat.add_mod_left, Nat.mod_eq_of_lt (by omega)]
        omega
      rwa [e] at h
    have hmiss1 : ∀ i, i < C - w → k ≠ 2 * (w + i) ∧ k ≠ 2 * (w + i) + 1 := by
      intro i hi
      have h := hk i (by omega)
      rwa [Nat.mod_eq_of_lt (by omega)] at h
    rw [copyFrames_miss samples (n - (C - w)) _ 0 (C - w) k hmiss2,
      copyFrames_miss samples (C - w) buf w 0 k hmiss1]

/-- C6 witness: capacity 3, write cursor 2, two frames wrapping the
boundary. -/
theorem C6_witness :
    ∃ buf',
      addToCircularBuffer ⟨some ⟨true, some (fun _ => 0), 3, 2, 0, 0, 0⟩⟩
          (fun i => Int.ofNat (10 + i)) 2 =
        ⟨some ⟨true, some buf', 3, (2 + 2) % 3, 0, 0, 0⟩⟩ ∧
      (∀ i, i < 2 →
        buf' (2 * ((2 + i) % 3)) = (fun i => Int.ofNat (10 + i)) (2 * i) ∧
        buf' (2 * ((2 + i) % 3) + 1) = (fun i => Int.ofNat (10 + i)) (2 * i + 1)) ∧
      (∀ k,
        (∀ i, i < 2 → k ≠ 2 * ((2 + i) % 3) ∧ k ≠ 2 * ((2 + i) % 3) + 1) →
        buf' k = (fun _ => (0 : Int)) k) :=
  C6_write true (fun _ => 0) (fun i => Int.ofNat (10 + i)) 3 2 0 0 0 2
    (by decide) (by decide) (by decide)

/-- C9: a diagnostics query on a context whose write cursor equals its read
cursor observes zero available frames, reports status Underrun (3), and
increments `underrunCount` by one as a side effect, while leaving both
cursors untouched — the counter mutates although no consumer read
occurred. -/
theorem C9_diagnostics_mutates (isP : Bool) (buf? : Option Storage) (C w u st : Nat) :
    ((getBufferDiagnostics ⟨some ⟨isP, buf?, C, w, w, u, st⟩⟩).1.context.map
        AudioUnitContext.underrunCount) = some (u + 1) ∧
    (getBufferDiagnostics ⟨some ⟨isP, buf?, C, w, w, u, st⟩⟩).2.available = 0 ∧
    (getBufferDiagnostics ⟨some ⟨isP, buf?, C, w, w, u, st⟩⟩).2.status = 3 ∧
    ((getBufferDiagnostics ⟨some ⟨isP, buf?, C, w, w, u, st⟩⟩).1.context.map
        AudioUnitContext.readPointer) = some w ∧
    ((getBufferDiagnostics ⟨some ⟨isP, buf?, C, w, w, u, st⟩⟩).1.context.map
        AudioUnitContext.writePointer) = some w := by
  have havail : availableFrames C w w = 0 := by
    unfold availableFrames
    rw [if_pos (Nat.le_refl w), Nat.sub_self]
  show ((if C / 4 < availableFrames C w w then _
      else if C / 8 < availableFrames C w w then _
      else if 0 < availableFrames C w w then _
      else _ : AudioPlayer × Diagnostics).1.context.map AudioUnitContext.underrunCount) =
        some (u + 1) ∧ _
  rw [havail]
  refine ⟨?_, ?_, ?_, ?_, ?_⟩ <;>
    simp [getBufferDiagnostics, havail]

/-- C10: the public buffer operations are total on null state: a write with
a null context or null storage returns the state unchanged; a callback with
a null context, inactive playback, or null storage fills the whole
destination with silence, returns success (0), and leaves the context —
both cursors included — untouched. -/
theorem C10_null_safety :
    (∀ (samples : Storage) (n : Nat),
      addToCircularBuffer ⟨none⟩ samples n = ⟨none⟩) ∧
    (∀ (isP : Bool) (C w r u st : Nat) (samples : Storage) (n : Nat),
      addToCircularBuffer ⟨some ⟨isP, none, C, w, r, u, st⟩⟩ samples n =
        ⟨some ⟨isP, none, C, w, r, u, st⟩⟩) ∧
    (∀ n : Nat,
      audioUnitCallback none n = ⟨none, List.replicate (2 * n) 0, 0, 0⟩) ∧
    (∀ (buf? : Option Storage) (C w r u st n : Nat),
      audioUnitCallback (some ⟨false, buf?, C, w, r, u, st⟩) n =
        ⟨some ⟨false, buf?, C, w, r, u, st⟩, List.replicate (2 * n) 0, 0, 0⟩) ∧
    (∀ C w r u st n : Nat,
      audioUnitCallback (some ⟨true, none, C, w, r, u, st⟩) n =
        ⟨some ⟨true, none, C, w, r, u, st⟩, List.replicate (2 * n) 0, 0, 0⟩) :=
  ⟨fun _ _ => rfl, fun _ _ _ _ _ _ _ _ => rfl, fun _ => rfl,
   fun _ _ _ _ _ _ _ => rfl, fun _ _ _ _ _ _ => rfl⟩

theorem underrun_applyOp_mono (p : AudioPlayer) (op : BufferOp) :
    underrunOf p ≤ underrunOf (applyOp p op) := by
  rcases p with ⟨_ | ⟨isP, buf?, C, w, r, u, st⟩⟩
  · cases op <;>
      simp [applyOp, underrunOf, addToCircularBuffer, audioUnitCallback,
        getBufferDiagnostics, resetCircularBuffer]
  · cases op with
    | write samples n =>
      rcases buf? with _ | buf <;>
        simp [applyOp, underrunOf, addToCircularBuffer]
    | callback n =>
      rcases buf? with _ | buf
      · rcases isP with _ | _ <;> simp [applyOp, underrunOf, audioUnitCallback]
      · rcases isP with _ | _
        · simp [applyOp, underrunOf, audioUnitCallback]
        · show u ≤ underrunOf ⟨(audioUnitCallback (some ⟨true, some buf, C, w, r, u, st⟩) n).ctx⟩
          rw [audioUnitCallback_live]
          show u ≤ (if min n (availableFrames C w r) < n then u + 1 else u)
          split <;> omega
    | diagQuery =>
      show u ≤ underrunOf (getBufferDiagnostics ⟨some ⟨isP, buf?, C, w, r, u, st⟩⟩).1
      simp only [getBufferDiagnostics]
      (repeat' split) <;> simp [underrunOf]
    | bufReset =>
      rcases buf? with _ | buf <;>
        simp [applyOp, underrunOf, resetCircularBuffer]

theorem underrun_foldl_mono (ops : List BufferOp) :
    ∀ p : AudioPlayer, underrunOf p ≤ underrunOf (ops.foldl applyOp p) := by
  induction ops with
  | nil => intro p; exact Nat.le_refl _
  | cons op rest ih =>
    intro p
    exact Nat.le_trans (underrun_applyOp_mono p op) (ih (applyOp p op))

/-- C3 (amended): over any sequence of buffer writes, consumer callbacks,
diagnostics queries and circular-buffer resets, `underrunCount` never
decreases; a live consumer callback increases it by exactly one when the
frames actually read fall short of the frames requested and leaves it
unchanged otherwise; but the counter is not incremented only by callbacks
(a diagnostics query observing an empty buffer also increments it, see the
counterexample), and `resetBufferDiagnostics` zeroes it. -/
theorem C3_underrun_monotonicity :
    (∀ (p : AudioPlayer) (ops : List BufferOp),
      underrunOf p ≤ underrunOf (ops.foldl applyOp p)) ∧
    (∀ (buf : Storage) (C w r u st n : Nat),
      underrunOf ⟨(audioUnitCallback (some ⟨true, some buf, C, w, r, u, st⟩) n).ctx⟩ =
        u + (if (audioUnitCallback (some ⟨true, some buf, C, w, r, u, st⟩) n).framesRead < n
          then 1 else 0)) ∧
    (∀ (isP : Bool) (buf? : Option Storage) (C w r u st : Nat),
      underrunOf (resetBufferDiagnostics ⟨some ⟨isP, buf?, C, w, r, u, st⟩⟩) = 0) := by
  refine ⟨fun p ops => underrun_foldl_mono ops p, fun buf C w r u st n => ?_, fun _ _ _ _ _ _ _ => rfl⟩
  rw [audioUnitCallback_live]
  show (if min n (availableFrames C w r) < n then u + 1 else u) =
    u + (if min n (availableFrames C w r) < n then 1 else 0)
  split <;> omega

/-- C3 counterexample to the original claim: a diagnostics query on an
empty buffer increments `underrunCount` from 0 to 1 although no consumer
callback ran, and a subsequent `resetBufferDiagnostics` decreases it back
to 0. -/
theorem C3_counterexample :
    underrunOf (getBufferDiagnostics ⟨some ⟨true, some (fun _ => 0), 8, 5, 5, 0, 0⟩⟩).1 = 1 ∧
    underrunOf (resetBufferDiagnostics
      (getBufferDiagnostics ⟨some ⟨true, some (fun _ => 0), 8, 5, 5, 0, 0⟩⟩).1) = 0 ∧
    ¬ (1 : Nat) ≤ 0 := by
  refine ⟨rfl, rfl, by decide⟩

theorem currentLead_add (C r d : Nat) (hC : 0 < C) (hr : r < C) (hd : d < C) :
    currentLead C ((r + d) % C) r = d := by
  unfold currentLead
  rw [mod_two_cases (r + d) C hC (by omega)]
  split
  · have e : r + d + C - r = C + d := by omega
    rw [e, Nat.add_mod_left]
    exact Nat.mod_eq_of_lt hd
  · have e : r + d - C + C - r = d := by omega
    rw [e]
    exact Nat.mod_eq_of_lt hd

theorem mod_sub_shift (C r a b : Nat) (hC : 0 < C) (hr : r < C) (ha : a < C) (hb : b < C)
    (hba : b ≤ a) :
    ((r + a) % C + C - (r + b) % C) % C = a - b := by
  rw [mod_two_cases (r + a) C hC (by omega), mod_two_cases (r + b) C hC (by omega)]
  split <;> split
  · have e : r + a + C - (r + b) = C + (a - b) := by omega
    rw [e, Nat.add_mod_left]
    exact Nat.mod_eq_of_lt (by omega)
  · exfalso; omega
  · have e : r + a - C + C - (r + b) = a - b := by omega
    rw [e]
    exact Nat.mod_eq_of_lt (by omega)
  · have e : r + a - C + C - (r + b - C) = C + (a - b) := by omega
    rw [e, Nat.add_mod_left]
    exact Nat.mod_eq_of_lt (by omega)

/-- C2: when the current lead exceeds `maxLeadFrames`, the LeadController
decision snaps the write cursor to `(readCursor + targetLeadFrames/2) mod
capacityFrames`, and after the producer writes the returned frame budget
the available frame count is at most `targetLeadFrames`. -/
theorem C2_safety_reset (cfg : LeadConfig) (w r : Nat)
    (hr : r < cfg.capacityFrames) (hw : w < cfg.capacityFrames)
    (htm : cfg.targetLeadFrames ≤ cfg.maxLeadFrames)
    (hmC : cfg.maxLeadFrames < cfg.capacityFrames)
    (hlead : cfg.maxLeadFrames < currentLead cfg.capacityFrames w r) :
    (leadCycle cfg w r).1 = (r + cfg.targetLeadFrames / 2) % cfg.capacityFrames ∧
    currentLead cfg.capacityFrames
      (((leadCycle cfg w r).1 + (leadCycle cfg w r).2) % cfg.capacityFrames) r ≤
      cfg.targetLeadFrames := by
  have hC : 0 < cfg.capacityFrames := by omega
  have hhalf : cfg.targetLeadFrames / 2 ≤ cfg.targetLeadFrames := Nat.div_le_self _ 2
  have hsnap : leadSnap cfg w r = (r + cfg.targetLeadFrames / 2) % cfg.capacityFrames := by
    unfold leadSnap
    rw [if_pos hlead]
  have e1 : currentLead cfg.capacityFrames
      ((r + cfg.targetLeadFrames / 2) % cfg.capacityFrames) r =
      cfg.targetLeadFrames / 2 :=
    currentLead_add _ _ _ hC hr (by omega)
  have e2 : ((r + cfg.targetLeadFrames) % cfg.capacityFrames + cfg.capacityFrames -
        (r + cfg.targetLeadFrames / 2) % cfg.capacityFrames) % cfg.capacityFrames =
      cfg.targetLeadFrames - cfg.targetLeadFrames / 2 :=
    mod_sub_shift _ _ _ _ hC hr (by omega) (by omega) hhalf
  have e3 : ((r + cfg.targetLeadFrames / 2) % cfg.capacityFrames +
        (cfg.targetLeadFrames - cfg.targetLeadFrames / 2)) % cfg.capacityFrames =
      (r + cfg.targetLeadFrames) % cfg.capacityFrames := by
    rw [Nat.mod_add_mod]
    congr 1
    omega
  have e4 : currentLead cfg.capacityFrames
      ((r + cfg.targetLeadFrames) % cfg.capacityFrames) r = cfg.targetLeadFrames :=
    currentLead_add _ _ _ hC hr (by omega)
  have hbudget : leadBudget cfg ((r + cfg.targetLeadFrames / 2) % cfg.capacityFrames) r =
      min (cfg.targetLeadFrames - cfg.targetLeadFrames / 2) cfg.defaultFramesPerCycle := by
    simp only [leadBudget]
    rw [e2, e3, e4, e1, if_neg (by omega)]
  have hcycle1 : (leadCycle cfg w r).1 =
      (r + cfg.targetLeadFrames / 2) % cfg.capacityFrames := by
    show leadSnap cfg w r = _
    exact hsnap
  have hcycle2 : (leadCycle cfg w r).2 =
      min (cfg.targetLeadFrames - cfg.targetLeadFrames / 2) cfg.defaultFramesPerCycle := by
    show leadBudget cfg (leadSnap cfg w r) r = _
    rw [hsnap, hbudget]
  refine ⟨hcycle1, ?_⟩
  rw [hcycle1, hcycle2]
  have hm : min (cfg.targetLeadFrames - cfg.targetLeadFrames / 2)
      cfg.defaultFramesPerCycle ≤ cfg.targetLeadFrames - cfg.targetLeadFrames / 2 :=
    Nat.min_le_left _ _
  have e5 : ((r + cfg.targetLeadFrames / 2) % cfg.capacityFrames +
        min (cfg.targetLeadFrames - cfg.targetLeadFrames / 2) cfg.defaultFramesPerCycle) %
        cfg.capacityFrames =
      (r + (cfg.targetLeadFrames / 2 +
        min (cfg.targetLeadFrames - cfg.targetLeadFrames / 2) cfg.defaultFramesPerCycle)) %
        cfg.capacityFrames := by
    rw [Nat.mod_add_mod]
    congr 1
    omega
  rw [e5, currentLead_add _ _ _ hC hr (by omega)]
  omega

/-- C2 witness: capacity 9600, target lead 441, maximum lead 4410, write
cursor 5000 leading read cursor 0 by more than the maximum. -/
theorem C2_witness :
    (leadCycle ⟨9600, 441, 4410, 735⟩ 5000 0).1 = (0 + 441 / 2) % 9600 ∧
    currentLead 9600
      (((leadCycle ⟨9600, 441, 4410, 735⟩ 5000 0).1 +
        (leadCycle ⟨9600, 441, 4410, 735⟩ 5000 0).2) % 9600) 0 ≤ 441 :=
  C2_safety_reset ⟨9600, 441, 4410, 735⟩ 5000 0 (by decide) (by decide) (by decide)
    (by decide) (by decide)

theorem add_shape (isP : Bool) (buf samples : Storage) (C w r u st n : Nat) :
    ∃ buf', addToCircularBuffer ⟨some ⟨isP, some buf, C, w, r, u, st⟩⟩ samples n =
      ⟨some ⟨isP, some buf', C, (w + n) % C, r, u, st⟩⟩ :=
  ⟨_, rfl⟩

theorem reset_stored (isP : Bool) (buf : Storage) (C w r u st : Nat) (hC : 0 < C) :
    ((resetCircularBuffer ⟨some ⟨isP, some buf, C, w, r, u, st⟩⟩).context.map
        AudioUnitContext.writePointer) = some 0 ∧
    ((resetCircularBuffer ⟨some ⟨isP, some buf, C, w, r, u, st⟩⟩).context.map
        AudioUnitContext.readPointer) = some 0 ∧
    storedSamples (resetCircularBuffer ⟨some ⟨isP, some buf, C, w, r, u, st⟩⟩) =
      some (List.replicate (2 * C) 0) := by
  refine ⟨rfl, rfl, ?_⟩
  show some (readFrames (fun i => if i < 2 * C then 0 else buf i) C 0 C) =
    some (List.replicate (2 * C) 0)
  rw [readFrames_zero _ C hC (fun k hk => if_pos hk) C 0]

/-- C7 (amended): in play mode the warm-up producer cycle does write its
drained audio into the ring buffer (when at least one frame was drained);
only WAV-only mode discards warm-up audio without writing it; the ring
buffer is reset immediately after warm-up ends, which zeroes both cursors
and the whole storage, so the warm-up audio still buffered at that moment
is discarded before steady-state playback. -/
theorem C7_warmup_buffering :
    (∀ (p : AudioPlayer) (audio : Storage) (m : Nat),
      warmupCycleWrite true p audio (m + 1) = addToCircularBuffer p audio (m + 1)) ∧
    (∀ (p : AudioPlayer) (audio : Storage) (n : Nat),
      warmupCycleWrite false p audio n = p) ∧
    (∀ (isP : Bool) (buf audio : Storage) (C w r u st n : Nat), 0 < C →
      ((resetCircularBuffer
          (warmupCycleWrite true ⟨some ⟨isP, some buf, C, w, r, u, st⟩⟩ audio n)).context.map
        AudioUnitContext.writePointer) = some 0 ∧
      ((resetCircularBuffer
          (warmupCycleWrite true ⟨some ⟨isP, some buf, C, w, r, u, st⟩⟩ audio n)).context.map
        AudioUnitContext.readPointer) = some 0 ∧
      storedSamples (resetCircularBuffer
          (warmupCycleWrite true ⟨some ⟨isP, some buf, C, w, r, u, st⟩⟩ audio n)) =
        some (List.replicate (2 * C) 0)) := by
  refine ⟨fun p audio m => ?_, fun p audio n => rfl, ?_⟩
  · unfold warmupCycleWrite
    rw [if_pos rfl, if_pos (Nat.succ_pos m)]
  intro isP buf audio C w r u st n hC
  by_cases hn : 0 < n
  · have hwu : warmupCycleWrite true ⟨some ⟨isP, some buf, C, w, r, u, st⟩⟩ audio n =
        addToCircularBuffer ⟨some ⟨isP, some buf, C, w, r, u, st⟩⟩ audio n := by
      unfold warmupCycleWrite
      rw [if_pos rfl, if_pos hn]
    obtain ⟨buf', heq⟩ := add_shape isP buf audio C w r u st n
    rw [hwu, heq]
    exact reset_stored isP buf' C ((w + n) % C) r u st hC
  · have hwu : warmupCycleWrite true ⟨some ⟨isP, some buf, C, w, r, u, st⟩⟩ audio n =
        ⟨some ⟨isP, some buf, C, w, r, u, st⟩⟩ := by
      unfold warmupCycleWrite
      rw [if_pos rfl, if_neg hn]
    rw [hwu]
    exact reset_stored isP buf C w r u st hC

/-- C7 counterexample to the original claim: in play mode one warm-up
cycle that drained 735 frames advances the ring buffer's write cursor from
0 to 735 — the ring buffer is written during warm-up. -/
theorem C7_counterexample :
    ((warmupCycleWrite true ⟨some ⟨true, some (fun _ => 0), 9600, 0, 0, 0, 0⟩⟩
        (fun _ => 3) 735).context.map AudioUnitContext.writePointer) = some 735 ∧
    (735 : Nat) ≠ 0 := by
  refine ⟨rfl, by decide⟩

/-- C7 witness: capacity 4, a 2-frame warm-up write from cursor 1, then
the post-warm-up reset. -/
theorem C7_witness :
    ((resetCircularBuffer
        (warmupCycleWrite true ⟨some ⟨true, some (fun _ => 9), 4, 1, 0, 0, 0⟩⟩
          (fun _ => 3) 2)).context.map AudioUnitContext.writePointer) = some 0 ∧
    ((resetCircularBuffer
        (warmupCycleWrite true ⟨some ⟨true, some (fun _ => 9), 4, 1, 0, 0, 0⟩⟩
          (fun _ => 3) 2)).context.map AudioUnitContext.readPointer) = some 0 ∧
    storedSamples (resetCircularBuffer
        (warmupCycleWrite true ⟨some ⟨true, some (fun _ => 9), 4, 1, 0, 0, 0⟩⟩
          (fun _ => 3) 2)) = some (List.replicate (2 * 4) 0) :=
  C7_warmup_buffering.2.2 true (fun _ => 9) (fun _ => 3) 4 1 0 0 0 2 (by decide)

/-- C8 counterexample to the original claim: `resetCircularBuffer` sets the
write cursor to 0, not to `targetLeadFrames = 441`, and from the actual
reset state one producer cycle of 735 frames followed by one consumer read
of 735 frames leaves 0 frames available, not 441. -/
theorem C8_counterexample :
    ((resetCircularBuffer ⟨some ⟨true, some (fun _ => 2), 9600, 1234, 567, 0, 0⟩⟩).context.map
        AudioUnitContext.writePointer) = some 0 ∧
    (0 : Nat) ≠ 441 ∧
    ((audioUnitCallback
        (addToCircularBuffer
          (resetCircularBuffer ⟨some ⟨true, some (fun _ => 2), 9600, 1234, 567, 0, 0⟩⟩)
          (fun i => Int.ofNat i) 735).context 735).ctx.map
      fun c => availableFrames c.circularBufferSize c.writePointer c.readPointer) =
        some 0 ∧
    ¬ (some (0 : Nat) = some 441) := by
  refine ⟨rfl, by decide, rfl, by decide⟩

/-- C8 (amended): with capacity 9600 frames and the code's fixed per-cycle
frame count of 735, starting from the state `reset()` actually establishes
(`writeCursor = 0`, `readCursor = 0`), one producer cycle writing 735
frames followed by one consumer read of 735 frames reads all 735 frames,
leaves `available = 0`, and reports zero underruns. -/
theorem C8_steady_state :
    (audioUnitCallback
      (addToCircularBuffer
        (resetCircularBuffer ⟨some ⟨true, some (fun _ => 2), 9600, 1234, 567, 0, 0⟩⟩)
        (fun i => Int.ofNat i) 735).context 735).framesRead = 735 ∧
    ((audioUnitCallback
      (addToCircularBuffer
        (resetCircularBuffer ⟨some ⟨true, some (fun _ => 2), 9600, 1234, 567, 0, 0⟩⟩)
        (fun i => Int.ofNat i) 735).context 735).ctx.map
      fun c => availableFrames c.circularBufferSize c.writePointer c.readPointer) =
        some 0 ∧
    ((audioUnitCallback
      (addToCircularBuffer
        (resetCircularBuffer ⟨some ⟨true, some (fun _ => 2), 9600, 1234, 567, 0, 0⟩⟩)
        (fun i => Int.ofNat i) 735).context 735).ctx.map
      AudioUnitContext.underrunCount) = some 0 := by
  refine ⟨rfl, rfl, rfl⟩

end EngineSimCli
